import Mathlib

/-!
Shallow embedding of the configuration materializer of
`toggl-git-python-utility` (files `toggl_git_python_utility/config_func.py`
and `toggl_git_python_utility/util.py`, plus the base64 consumer in
`toggl_git_python_utility/__main__.py`).

Modelling conventions:

* Python values flowing through the materializer are modelled by `Value`;
  decoded JSON documents by `Json`.  A `pathlib.Path` object is represented
  by its canonical string form (`str(path)`), so the `Path` constructor acts
  as the identity on strings already in canonical form, which is the only
  way paths arise in the materializer (every stored path is `str` of a
  `Path` object).
* The textual JSON layer (`json.dumps` / `json.load`, Python standard
  library, not repository code) is modelled as the identity on the JSON
  tree: `parse (dumps j) = j` is the stdlib contract.  A malformed persisted
  document is therefore modelled as a parse result `Except.error ()`.
* Interactive input is modelled by a finite script of input lines inside
  `PState`; a resolver that exhausts the script corresponds to Python
  blocking forever on `input()` and is modelled by the error `PyErr.blocked`.
  `PState.reads` counts `input()`/`askpass` calls, `PState.errors` counts
  failed validation attempts (each of which prints an error hint).
* The filesystem seen by `Path(p).exists()` is modelled as the list of
  existing path strings, passed as the parameter `fs`.
-/

/-- Python exceptions that the materializer can raise, plus the two
modelling artefacts `blocked` (the program would wait forever on input)
and `outOfFuel` (recursion fuel exhausted; never happens at `genFuel` for
the static schema). -/
inductive PyErr where
  | typeError
  | valueError
  | attributeError
  | blocked
  | outOfFuel
  | unmodelled
deriving Repr, DecidableEq

/-- A decoded JSON document (`json.load` output): the raw nested mapping the
Config Manager re-materializes against.  Arrays do not occur in the schema
and are omitted. -/
inductive Json where
  | null
  | bool (b : Bool)
  | int (n : Int)
  | str (s : String)
  | obj (fields : List (String × Json))
deriving Repr

/-- A Python value produced by the materializer: `none` is Python `None`,
`record` is a dataclass instance (field order preserved), `path` is a
`pathlib.Path` represented by its canonical string, and `pytype` is the
fall-through case of `generate_config` where the annotation object itself is
stored as the value (unreachable for the static schema). -/
inductive Value where
  | none
  | bool (b : Bool)
  | int (n : Int)
  | str (s : String)
  | path (p : String)
  | record (fields : List (String × Value))
  | pytype (tag : Nat)
deriving Repr

/-- The five dataclasses of `config_func.py`. -/
inductive CName where
  | pythonConfig
  | gitConfig
  | togglAuth
  | togglConfig
  | configModel
deriving Repr, DecidableEq

/-- A Python type annotation as `generate_config` inspects it:
`lit` is `typing.Literal[...]`, `opt` is `typing.Optional[...]`
(`Union[inner, None]`, whose `get_args` head is `inner`), and `cls` is a
nested dataclass. -/
inductive Shape where
  | bool
  | int
  | str
  | path
  | lit (options : List String)
  | opt (inner : Shape)
  | cls (c : CName)
deriving Repr, DecidableEq

/-- Interactive console state: remaining scripted input lines, number of
reads performed, number of failed validation attempts (error hints
printed). -/
structure PState where
  inputs : List String
  reads : Nat
  errors : Nat
deriving Repr, DecidableEq

/-- First-match association lookup (Python `dict` access at the keys used by
the materializer; field lists of the static schema have unique keys). -/
def lookupKey {α : Type} : List (String × α) → String → Option α
  | [], _ => Option.none
  | (k, v) :: rest, key => if k = key then some v else lookupKey rest key

/-- Python truthiness of a decoded JSON value (`if convert:`). -/
def pyTruthy : Json → Bool
  | .null => false
  | .bool b => b
  | .int n => n != 0
  | .str s => s != ""
  | .obj [] => false
  | .obj (_ :: _) => true

/-- Python `str(x)` on a decoded JSON value.  `str` of a nested object would
be its `dict` repr; that case is unreachable for documents matching the
schema and is rendered with a fixed marker. -/
def pyStr : Json → String
  | .null => "None"
  | .bool b => if b then "True" else "False"
  | .int n => toString n
  | .str s => s
  | .obj _ => "OBJECT"

/-- Nonempty decimal digit string to its value. -/
def digitsVal (ds : List Char) : Option Nat :=
  match ds with
  | [] => Option.none
  | _ =>
    if ds.all (fun c => c.isDigit) then
      some (ds.foldl (fun a c => a * 10 + (c.toNat - 48)) 0)
    else Option.none

/-- Python `int(s)` on a string: optional sign followed by decimal digits,
`None` on failure (`ValueError`).  Python additionally strips surrounding
whitespace and allows `_` digit separators; neither occurs in any claim. -/
def pyIntOfString (s : String) : Option Int :=
  match s.data with
  | '-' :: rest => (digitsVal rest).map (fun n => -(n : Int))
  | '+' :: rest => (digitsVal rest).map (fun n => (n : Int))
  | ds => (digitsVal ds).map (fun n => (n : Int))

/-!
## Schema Reflector (`util.all_annotations`, `util.collect_defaults`)
-/

/-- One pass of `all_annotations` over one class of the MRO: walk the
class's own `__annotations__` in declaration order and append each entry
whose key has not been collected yet (`if key in anno: continue`). -/
def insertAnnotations {α : Type} (anno : List (String × α))
    (clsAnns : List (String × α)) : List (String × α) :=
  clsAnns.foldl
    (fun acc kv => if acc.any (fun p => p.1 = kv.1) then acc else acc ++ [kv])
    anno

/-- `util.all_annotations`: fold `insertAnnotations` over `reversed(cls.__mro__)`
(outer-most / least derived class first), starting from the empty mapping.
The argument lists the per-class `__annotations__` tables in MRO order
(most derived class first, exactly like Python's `cls.__mro__`). -/
def all_annotations {α : Type} (mro : List (List (String × α))) :
    List (String × α) :=
  mro.reverse.foldl insertAnnotations []

/-- Left-biased choice on `Option` (used to phrase first-match lookup laws). -/
def oor {α : Type} : Option α → Option α → Option α
  | some v, _ => some v
  | Option.none, y => y

/-- Keep the first occurrence of every element, preserving order. -/
def dedupFirst (l : List String) : List String :=
  l.foldl (fun acc k => if acc.any (fun k2 => k2 = k) then acc else acc ++ [k]) []

/-!
## The static schema (the five dataclasses of `config_func.py`)
-/

/-- The `__annotations__` table each dataclass declares directly, in
declaration order. -/
def ownAnnotations : CName → List (String × Shape)
  | .pythonConfig =>
    [("package_manager", .lit ["PIP", "Conda", "Poetry"]),
     ("environment", .lit ["Conda", "Venv"]),
     ("type_checking", .opt (.lit ["Mypy"])),
     ("security_checking", .opt (.lit ["Bandit"])),
     ("linting", .opt (.lit ["Flake8", "Ruff", "Pylint"])),
     ("tests", .opt (.lit ["Unittest", "Pytest"])),
     ("main_code", .path),
     ("format_code", .bool)]
  | .gitConfig =>
    [("add", .bool), ("commit", .bool), ("push", .bool)]
  | .togglAuth =>
    [("username", .str), ("password", .str), ("api_key", .opt .str)]
  | .togglConfig =>
    [("user_data", .cls .togglAuth), ("project", .opt .int), ("cancel", .bool)]
  | .configModel =>
    [("target_directory", .path), ("python", .cls .pythonConfig),
     ("git", .cls .gitConfig), ("toggl", .cls .togglConfig)]

/-- `cls.__mro__` of each dataclass: the class itself, then `object`
(which contributes no annotations). -/
def mroOf (c : CName) : List (List (String × Shape)) :=
  [ownAnnotations c, []]

/-- The ordered field table `generate_config` walks:
`util.all_annotations(config_model)`. -/
def fieldsOf (c : CName) : List (String × Shape) :=
  all_annotations (mroOf c)

/-- `util.collect_defaults`: dataclass field defaults, with missing defaults
replaced by `None` (and a `defaultdict` returning `None` for unknown keys). -/
def defaultsOf : CName → String → Value
  | .pythonConfig, "package_manager" => .str "PIP"
  | .pythonConfig, "environment" => .str "Venv"
  | .pythonConfig, "main_code" => .path "src"
  | .pythonConfig, "format_code" => .bool true
  | .gitConfig, "add" => .bool false
  | .gitConfig, "commit" => .bool true
  | .gitConfig, "push" => .bool false
  | .togglConfig, "cancel" => .bool false
  | _, _ => .none

/-!
## Regular-expression semantics for `select_username`

The pattern compiled by `select_username` is
`([A-Za-z0-9]+[.-_])*[A-Za-z0-9]+@[A-Za-z0-9-]+(\.[A-Z|a-z]{2,})+`
checked with `re.fullmatch`, i.e. acceptance is membership of the whole
string in the pattern's language.  Language membership is decided with
Brzozowski derivatives over character codes.  Note two literal facts about
the pattern as written in the source: inside a character class `.-_` is the
code range 0x2E–0x5F (not the three characters `.`, `-`, `_`), and
`[A-Z|a-z]` contains the character `|`.
-/

/-- Regular expressions over natural-number character codes.  `cls ranges`
matches one character whose code lies in one of the inclusive ranges; with
an empty range list it is the empty language. -/
inductive RE where
  | eps
  | cha (ranges : List (Nat × Nat))
  | cat (r1 r2 : RE)
  | alt (r1 r2 : RE)
  | star (r : RE)
deriving Repr, DecidableEq

/-- Does a character class match code `c`? -/
def chaMatch (ranges : List (Nat × Nat)) (c : Nat) : Bool :=
  ranges.any (fun r => decide (r.1 ≤ c) && decide (c ≤ r.2))

/-- Does the language of `r` contain the empty string? -/
def reNullable : RE → Bool
  | .eps => true
  | .cha _ => false
  | .cat a b => reNullable a && reNullable b
  | .alt a b => reNullable a || reNullable b
  | .star _ => true

/-- Smart concatenation (language-preserving simplification). -/
def reCat : RE → RE → RE
  | .cha [], _ => .cha []
  | .eps, b => b
  | a, .cha [] => match a with | _ => .cha []
  | a, .eps => a
  | a, b => .cat a b

/-- Smart alternation (language-preserving simplification). -/
def reAlt : RE → RE → RE
  | .cha [], b => b
  | a, .cha [] => a
  | a, b => .alt a b

/-- Brzozowski derivative of `r` by character code `c`. -/
def reDeriv : RE → Nat → RE
  | .eps, _ => .cha []
  | .cha rs, c => if chaMatch rs c then .eps else .cha []
  | .cat a b, c =>
    if reNullable a then reAlt (reCat (reDeriv a c) b) (reDeriv b c)
    else reCat (reDeriv a c) b
  | .alt a b, c => reAlt (reDeriv a c) (reDeriv b c)
  | .star a, c => reCat (reDeriv a c) (.star a)

/-- Language membership (`re.fullmatch` success) via repeated derivatives. -/
def reMatch : RE → List Nat → Bool
  | r, [] => reNullable r
  | r, c :: rest => reMatch (reDeriv r c) rest

/-- `r+` as `r · r*`. -/
def rePlus (r : RE) : RE := .cat r (.star r)

/-- `r{2,}` as `r · r · r*`. -/
def reTwoPlus (r : RE) : RE := .cat r (.cat r (.star r))

/-- `[A-Za-z0-9]`. -/
def alnumCha : RE := .cha [(48, 57), (65, 90), (97, 122)]

/-- `[.-_]` as the source writes it: the single code range from `.` (0x2E)
to `_` (0x5F), which also contains `/`, the digits, `:;<=>?@`, the
uppercase letters and `[\]^`. -/
def sepChaCode : RE := .cha [(46, 95)]

/-- The three literal characters `.`, `-`, `_` — the separator class the
spec describes. -/
def sepChaSpec : RE := .cha [(46, 46), (45, 45), (95, 95)]

/-- `[A-Za-z0-9-]`. -/
def domainCha : RE := .cha [(45, 45), (48, 57), (65, 90), (97, 122)]

/-- `[A-Z|a-z]` as the source writes it: uppercase letters, `|` (0x7C) and
lowercase letters. -/
def suffixChaCode : RE := .cha [(65, 90), (97, 122), (124, 124)]

/-- Letters only — the suffix class the spec describes. -/
def suffixChaSpec : RE := .cha [(65, 90), (97, 122)]

/-- `\.` -/
def dotCha : RE := .cha [(46, 46)]

/-- `@` -/
def atCha : RE := .cha [(64, 64)]

/-- The email-like pattern with separator class `sep` and suffix-letter
class `suf`:
`([A-Za-z0-9]+ sep)* [A-Za-z0-9]+ @ [A-Za-z0-9-]+ (\. suf{2,})+`. -/
def emailRE (sep suf : RE) : RE :=
  .cat (.star (.cat (rePlus alnumCha) sep))
    (.cat (rePlus alnumCha)
      (.cat atCha
        (.cat (rePlus domainCha)
          (rePlus (.cat dotCha (reTwoPlus suf))))))

/-- The pattern `select_username` actually compiles. -/
def usernameRECode : RE := emailRE sepChaCode suffixChaCode

/-- The pattern the spec describes. -/
def usernameRESpec : RE := emailRE sepChaSpec suffixChaSpec

/-- Character codes of a string. -/
def strCodes (s : String) : List Nat :=
  s.data.map (fun c => c.toNat)

/-- Acceptance test of `select_username` (`re.fullmatch` against the
compiled pattern succeeds). -/
def usernameOk (s : String) : Bool :=
  reMatch usernameRECode (strCodes s)

/-- Acceptance test of the email-like pattern as the spec describes it. -/
def usernameSpecOk (s : String) : Bool :=
  reMatch usernameRESpec (strCodes s)

/-!
## Base64 (`base64.b64encode` in `select_password`, `base64.b64decode` in
`TgglApi.__init__`)

Standard base64 over byte values (naturals below 256); output and input are
lists of ASCII codes.  `61` is the code of the padding character `=`.
-/

/-- Code of the base64 alphabet character for a sextet value below 64. -/
def b64Char (v : Nat) : Nat :=
  if v < 26 then v + 65
  else if v < 52 then v + 71
  else if v < 62 then v - 4
  else if v = 62 then 43
  else 47

/-- Sextet value of a base64 alphabet character code. -/
def b64Val (c : Nat) : Option Nat :=
  if 65 ≤ c ∧ c ≤ 90 then some (c - 65)
  else if 97 ≤ c ∧ c ≤ 122 then some (c - 71)
  else if 48 ≤ c ∧ c ≤ 57 then some (c + 4)
  else if c = 43 then some 62
  else if c = 47 then some 63
  else Option.none

/-- `base64.b64encode` on a byte list, producing the ASCII codes of the
padded encoding. -/
def b64EncodeBytes : List Nat → List Nat
  | [] => []
  | [a] => [b64Char (a / 4), b64Char (a % 4 * 16), 61, 61]
  | [a, b] =>
    [b64Char (a / 4), b64Char (a % 4 * 16 + b / 16), b64Char (b % 16 * 4), 61]
  | a :: b :: c :: rest =>
    b64Char (a / 4) :: b64Char (a % 4 * 16 + b / 16) ::
      b64Char (b % 16 * 4 + c / 64) :: b64Char (c % 64) :: b64EncodeBytes rest

/-- `base64.b64decode` on the ASCII codes of a properly padded encoding (the
only inputs the repository ever feeds it: outputs of `b64encode`). -/
def b64DecodeBytes : List Nat → Option (List Nat)
  | [] => some []
  | c1 :: c2 :: c3 :: c4 :: rest =>
    match b64Val c1, b64Val c2 with
    | some v1, some v2 =>
      if c3 = 61 ∧ c4 = 61 ∧ rest = [] then
        some [v1 * 4 + v2 / 16]
      else if c4 = 61 ∧ rest = [] then
        match b64Val c3 with
        | some v3 => some [v1 * 4 + v2 / 16, v2 % 16 * 16 + v3 / 4]
        | Option.none => Option.none
      else
        match b64Val c3, b64Val c4 with
        | some v3, some v4 =>
          (b64DecodeBytes rest).map
            (fun tail =>
              (v1 * 4 + v2 / 16) :: (v2 % 16 * 16 + v3 / 4) ::
                (v3 % 4 * 64 + v4) :: tail)
        | _, _ => Option.none
    | _, _ => Option.none
  | _ => Option.none

/-- UTF-8 encoding of one code point. -/
def utf8EncodeChar (n : Nat) : List Nat :=
  if n < 128 then [n]
  else if n < 2048 then [192 + n / 64, 128 + n % 64]
  else if n < 65536 then [224 + n / 4096, 128 + n / 64 % 64, 128 + n % 64]
  else [240 + n / 262144, 128 + n / 4096 % 64, 128 + n / 64 % 64, 128 + n % 64]

/-- `s.encode("utf-8")` as a byte list. -/
def utf8Bytes (s : String) : List Nat :=
  (s.data.map (fun c => utf8EncodeChar c.toNat)).flatten

/-- A string from ASCII codes (`bytes.decode` on base64 output, which is
pure ASCII). -/
def asciiString (codes : List Nat) : String :=
  String.mk (codes.map Char.ofNat)

/-!
## Prompt Resolvers

Each resolver is a retry loop over the remaining input script.  The `go`
functions return the accepted value together with the number of reads
performed and the number of failed attempts (error hints printed); `none`
means the script is exhausted (Python would block forever).  `applyGo`
replays that accounting onto a `PState`.
-/

/-- Thread a resolver-loop result through the console state. -/
def applyGo {α : Type} (st : PState) :
    Option (α × Nat × Nat) → Option (α × PState)
  | some (v, r, e) =>
    some (v, { inputs := st.inputs.drop r, reads := st.reads + r,
               errors := st.errors + e })
  | Option.none => Option.none

/-- `Path(p).exists()` over the modelled filesystem. -/
def path_exists (fs : List String) (p : String) : Bool :=
  fs.contains p

/-- Retry loop of `create_path`: read a line; if the path exists return it
unchanged, otherwise print `Invalid Path Specified` and repeat. -/
def create_path_go (fs : List String) : List String → Option (String × Nat × Nat)
  | [] => Option.none
  | p :: rest =>
    if path_exists fs p then some (p, 1, 0)
    else (create_path_go fs rest).map (fun x => (x.1, x.2.1 + 1, x.2.2 + 1))

/-- `create_path`: the Path resolver (returns the entered string,
untransformed). -/
def create_path (fs : List String) (st : PState) : Option (String × PState) :=
  applyGo st (create_path_go fs st.inputs)

/-- Retry loop of `select_option`: read a line and parse it as an integer
(retry on `ValueError`); a 1-based index into `items` selects that option,
the sentinel index `len(items) + 1` selects `default`, anything else
retries. -/
def select_option_go (items : List String) (default : Value) :
    List String → Option (Value × Nat × Nat)
  | [] => Option.none
  | inp :: rest =>
    match pyIntOfString inp with
    | some sel =>
      if 1 ≤ sel ∧ sel ≤ (items.length : Int) then
        some (.str (items.getD (sel.toNat - 1) ""), 1, 0)
      else if sel = (items.length : Int) + 1 then
        some (default, 1, 0)
      else
        (select_option_go items default rest).map
          (fun x => (x.1, x.2.1 + 1, x.2.2 + 1))
    | Option.none =>
      (select_option_go items default rest).map
        (fun x => (x.1, x.2.1 + 1, x.2.2 + 1))

/-- `select_option`: the Choice resolver. -/
def select_option (items : List String) (default : Value) (st : PState) :
    Option (Value × PState) :=
  applyGo st (select_option_go items default st.inputs)

/-- Retry loop of `select_username`: read a line; return it unchanged if
`re.fullmatch` against the compiled pattern succeeds, otherwise print the
format hint and repeat. -/
def select_username_go : List String → Option (String × Nat × Nat)
  | [] => Option.none
  | inp :: rest =>
    if usernameOk inp then some (inp, 1, 0)
    else (select_username_go rest).map (fun x => (x.1, x.2.1 + 1, x.2.2 + 1))

/-- `select_username`: the Identity/username resolver. -/
def select_username (st : PState) : Option (Value × PState) :=
  (applyGo st (select_username_go st.inputs)).map
    (fun x => (Value.str x.1, x.2))

/-- `select_password`: read one masked line and return
`base64.b64encode(pw.encode("utf-8")).decode("utf-8")`; any text is
accepted (no retry loop). -/
def select_password (st : PState) : Option (Value × PState) :=
  match st.inputs with
  | [] => Option.none
  | pw :: rest =>
    some (.str (asciiString (b64EncodeBytes (utf8Bytes pw))),
          { inputs := rest, reads := st.reads + 1, errors := st.errors })

/-- Retry loop of `select_int`: read a line and parse it as a base-10
integer, retrying on `ValueError`. -/
def select_int_go : List String → Option (Int × Nat × Nat)
  | [] => Option.none
  | inp :: rest =>
    match pyIntOfString inp with
    | some n => some (n, 1, 0)
    | Option.none =>
      (select_int_go rest).map (fun x => (x.1, x.2.1 + 1, x.2.2 + 1))

/-- `select_int`: the Integer resolver. -/
def select_int (st : PState) : Option (Value × PState) :=
  (applyGo st (select_int_go st.inputs)).map (fun x => (Value.int x.1, x.2))

/-!
## Schema Materializer (`ConfigManager.generate_config`)
-/

/-- `dict.get(k)` on a decoded sub-document, as the recursive call
`self.generate_config(v, convert.get(k))` sees it: a stored JSON `null` and
a missing key are both Python `None`.  Calling `.get` on a truthy non-dict
raises `AttributeError`. -/
def jsonGet (j : Json) (k : String) : Except PyErr (Option Json) :=
  match j with
  | .obj fields =>
    match lookupKey fields k with
    | some .null => .ok Option.none
    | some v => .ok (some v)
    | Option.none => .ok Option.none
  | _ => .error .attributeError

/-- Python `int(x)` on an optional decoded value: `int(None)` and `int` of a
dict raise `TypeError`, `int` of a non-numeric string raises `ValueError`,
`int(True) = 1`, `int(False) = 0`. -/
def pyIntC : Option Json → Except PyErr Value
  | Option.none => .error .typeError
  | some (.int n) => .ok (.int n)
  | some (.bool b) => .ok (.int (if b then 1 else 0))
  | some (.str s) =>
    match pyIntOfString s with
    | some n => .ok (.int n)
    | Option.none => .error .valueError
  | some .null => .error .typeError
  | some (.obj _) => .error .typeError

/-- Python `Path(x)` on an optional decoded value: accepts a string, raises
`TypeError` on `None`, booleans, numbers and dicts. -/
def pyPathC : Option Json → Except PyErr Value
  | some (.str s) => .ok (.path s)
  | _ => .error .typeError

/-- Python `str(x)` on an optional decoded value (`str(None) = "None"`). -/
def pyStrC : Option Json → String
  | Option.none => "None"
  | some j => pyStr j

/-- Python `bool(x)` on an optional decoded value (`bool(None) = False`). -/
def pyBoolC : Option Json → Bool
  | Option.none => false
  | some j => pyTruthy j

/-- The early-return branch of `generate_config` for a `config_model` that
is not one of the five dataclasses: unwrap a `Union` to its first argument,
turn a `Literal` into `str`, then call the resulting constructor on
`convert`.  An `Optional` dataclass would be called with one positional
argument; that never happens for the static schema and is flagged. -/
def convertLeaf (model : Shape) (convert : Option Json) : Except PyErr Value :=
  let m := match model with
    | .opt inner => inner
    | x => x
  match m with
  | .lit _ => .ok (.str (pyStrC convert))
  | .str => .ok (.str (pyStrC convert))
  | .bool => .ok (.bool (pyBoolC convert))
  | .int => pyIntC convert
  | .path => pyPathC convert
  | .opt _ => .error .unmodelled
  | .cls _ => .error .unmodelled

/-- Is the annotation one of `{TogglConfig, TogglAuth, PythonConfig,
GitConfig}` — the set the fresh path recurses into?  (`ConfigModel` is not
in that set in the source.) -/
def isNestedDataclass : Shape → Bool
  | .cls .configModel => false
  | .cls _ => true
  | _ => false

/-- Turn an interactive-resolver result into the materializer's monad
(`none` = the input script ran out, i.e. Python blocks forever). -/
def ofInput : Option (Value × PState) → Except PyErr (Value × PState)
  | some r => .ok r
  | Option.none => .error .blocked

/-- The `elif` chain of `generate_config` for one field on the fresh path
(no usable `convert`), in source order: a `bool` field takes its declared
default; a `Path` field prompts `create_path`; a nested dataclass recurses;
fields named `password`/`api_key` prompt `select_password`; a field named
`username` prompts `select_username`; a `Literal` field prompts
`select_option`; an `int` field prompts `select_int`; otherwise the
annotation object itself is kept as the value. -/
def freshField
    (g : Shape → Option Json → PState → Except PyErr (Value × PState))
    (fs : List String) (c : CName) (k : String) (v : Shape) (st : PState) :
    Except PyErr (Value × PState) :=
  let defaultV := defaultsOf c k
  let item := match v with
    | .opt inner => inner
    | x => x
  if item = .bool then .ok (defaultV, st)
  else if item = .path then
    ofInput ((create_path fs st).map (fun x => (Value.str x.1, x.2)))
  else if isNestedDataclass item then g v Option.none st
  else if k = "password" ∨ k = "api_key" then ofInput (select_password st)
  else if k = "username" then ofInput (select_username st)
  else
    match item with
    | .lit options => ofInput (select_option options defaultV st)
    | .int => ofInput (select_int st)
    | _ => .ok (.pytype 0, st)

/-- The field-walking loop of `generate_config`: for each annotated field,
either reconcile against the corresponding slice of `convert` (when
`convert` is truthy) or fall to the fresh-path dispatch; collect results in
declaration order. -/
def genFields
    (g : Shape → Option Json → PState → Except PyErr (Value × PState))
    (fs : List String) (c : CName) :
    List (String × Shape) → Option Json → PState →
      Except PyErr (List (String × Value) × PState)
  | [], _, st => .ok ([], st)
  | (k, v) :: rest, convert, st => do
    let (d, st1) ←
      match convert with
      | some j =>
        if pyTruthy j then do
          let sub ← jsonGet j k
          g v sub st
        else freshField g fs c k v st
      | Option.none => freshField g fs c k v st
    let (ds, st2) ← genFields g fs c rest convert st1
    .ok ((k, d) :: ds, st2)

/-- Replace the value of field `k` using `f` (the `__post_init__` `Path`
coercions). -/
def mapField (k : String) (f : Value → Except PyErr Value) :
    List (String × Value) → Except PyErr (List (String × Value))
  | [] => .ok []
  | (k1, v) :: rest =>
    if k1 = k then do
      let v1 ← f v
      .ok ((k1, v1) :: rest)
    else do
      let rest1 ← mapField k f rest
      .ok ((k1, v) :: rest1)

/-- `Path(x)` applied to an already materialized value (`__post_init__`):
accepts strings and `Path` values, `TypeError` otherwise. -/
def pyPathOfValue : Value → Except PyErr Value
  | .str s => .ok (.path s)
  | .path p => .ok (.path p)
  | _ => .error .typeError

/-- `__post_init__` of the constructed dataclass: `ConfigModel` coerces
`target_directory` through `Path`, `PythonConfig` coerces `main_code`; the
other dataclasses have no `__post_init__`. -/
def postInit (c : CName) (data : List (String × Value)) :
    Except PyErr (List (String × Value)) :=
  match c with
  | .configModel => mapField "target_directory" pyPathOfValue data
  | .pythonConfig => mapField "main_code" pyPathOfValue data
  | _ => .ok data

/-- `ConfigManager.generate_config(config_model, convert)`.  A dataclass
model walks its reflected field table (then applies `__post_init__` through
the constructor call `config_model(**data)`); any other model takes the
early-return constructor branch.  `fuel` bounds the recursion depth; the
static schema needs depth 4, and all theorems use `genFuel = 10`. -/
def generate_config (fs : List String) :
    Nat → Shape → Option Json → PState → Except PyErr (Value × PState)
  | 0, _, _, _ => .error .outOfFuel
  | fuel + 1, model, convert, st =>
    match model with
    | .cls c => do
      let (data, st1) ←
        genFields (generate_config fs fuel) fs c (fieldsOf c) convert st
      let data1 ← postInit c data
      .ok (.record data1, st1)
    | m => do
      let v ← convertLeaf m convert
      .ok (v, st)

/-- Recursion fuel used by every theorem (the static schema needs 4). -/
def genFuel : Nat := 10

/-!
## Persistence Codec and Config Manager
-/

mutual
/-- `json.dumps(asdict(config), cls=util.CustomJSONEncoder)` up to the
textual layer: dataclasses become objects, `Path` leaves become their
string form (the `CustomJSONEncoder.default` hook), `None` becomes `null`,
scalars map directly.  A `pytype` value (unreachable for the static schema)
would make the encoder raise; it is rendered as `null`. -/
def encode : Value → Json
  | .none => .null
  | .bool b => .bool b
  | .int n => .int n
  | .str s => .str s
  | .path p => .str p
  | .record fields => .obj (encodeFields fields)
  | .pytype _ => .null

/-- Field-wise encoding of a dataclass body. -/
def encodeFields : List (String × Value) → List (String × Json)
  | [] => []
  | (k, v) :: rest => (k, encode v) :: encodeFields rest
end

/-- `ConfigManager.new_config`: materialize fresh (`convert` absent), then
write the encoded document to the persisted path.  The third component
records what was written to disk. -/
def new_config (fs : List String) (st : PState) :
    Except PyErr (Value × PState × Option Json) := do
  let (v, st1) ← generate_config fs genFuel (.cls .configModel) Option.none st
  .ok (v, st1, some (encode v))

/-- `ConfigManager.load_config`: parse the persisted document; on a JSON
decode error fall back to `new_config`, otherwise materialize against the
decoded mapping and return without writing.  The argument is the result of
`json.load` (`Except.error ()` = `json.JSONDecodeError`). -/
def load_config (fs : List String) (doc : Except Unit Json) (st : PState) :
    Except PyErr (Value × PState × Option Json) :=
  match doc with
  | .ok data => do
    let (v, st1) ←
      generate_config fs genFuel (.cls .configModel) (some data) st
    .ok (v, st1, Option.none)
  | .error _ => new_config fs st

/-- `ConfigManager.__init__`: reuse the persisted document when it exists
and regeneration is not forced, otherwise create a new configuration. -/
def configManagerInit (fs : List String) (fileExists forceNew : Bool)
    (doc : Except Unit Json) (st : PState) :
    Except PyErr (Value × PState × Option Json) :=
  if fileExists && !forceNew then load_config fs doc st
  else new_config fs st

/-!
## Concrete values used by the claims
-/

/-- Fold a key list keeping first occurrences, starting from `ks` (the key
accumulation pattern of `all_annotations`). -/
def dedupInto (ks : List String) (l : List String) : List String :=
  l.foldl (fun acc k => if acc.any (fun k2 => k2 = k) then acc else acc ++ [k]) ks

/-- A fully materialized `ConfigModel` value with every `Optional` leaf
present, parametrized by its leaf contents: target directory, the six
python leaves plus `main_code`/`format_code`, the three git booleans, the
toggl credentials, project id and cancel flag.  Every configuration value
produced from the static schema whose optional leaves are all present has
this form. -/
def mkConfigValue (td pm env tc sc li te mc : String) (fc ga gc gp : Bool)
    (u pw ak : String) (pr : Int) (cn : Bool) : Value :=
  .record
    [("target_directory", .path td),
     ("python", .record
       [("package_manager", .str pm), ("environment", .str env),
        ("type_checking", .str tc), ("security_checking", .str sc),
        ("linting", .str li), ("tests", .str te),
        ("main_code", .path mc), ("format_code", .bool fc)]),
     ("git", .record
       [("add", .bool ga), ("commit", .bool gc), ("push", .bool gp)]),
     ("toggl", .record
       [("user_data", .record
         [("username", .str u), ("password", .str pw), ("api_key", .str ak)]),
        ("project", .int pr), ("cancel", .bool cn)])]

/-- A syntactically valid persisted document that mismatches the schema:
the `Optional[int]` field `project` (and the optional python leaves and
`api_key`) hold JSON `null`, exactly as the encoder writes absent
optionals. -/
def mismatchedDoc : Json :=
  .obj
    [("target_directory", .str "p"),
     ("python", .obj
       [("package_manager", .str "PIP"), ("environment", .str "Venv"),
        ("type_checking", .null), ("security_checking", .null),
        ("linting", .null), ("tests", .null),
        ("main_code", .str "src"), ("format_code", .bool true)]),
     ("git", .obj
       [("add", .bool false), ("commit", .bool true), ("push", .bool false)]),
     ("toggl", .obj
       [("user_data", .obj
         [("username", .str "u@v.cc"), ("password", .str "eA=="),
          ("api_key", .null)]),
        ("project", .null), ("cancel", .bool false)])]

/-- A concrete fully-present configuration value (used to exercise the
Reuse path). -/
def reuseValue : Value :=
  mkConfigValue "proj" "PIP" "Venv" "Mypy" "Bandit" "Ruff" "Pytest" "src"
    true false true false "a@b.cc" "cHc=" "a2V5" 7 false

/-- Filesystem for a concrete fresh run: the two paths the operator will
enter exist. -/
def freshFs : List String := ["proj", "code"]

/-- Input script for a concrete fresh run: target directory, six choice
selections for the python record (the last four pick the default
sentinel), the code path, then username, password, api key and project
id. -/
def freshInputs : List String :=
  ["proj", "1", "2", "2", "2", "4", "3", "code", "a@b.cc", "pw", "k", "7"]

/-- The configuration value the fresh run above materializes. -/
def freshRunValue : Value :=
  .record
    [("target_directory", .path "proj"),
     ("python", .record
       [("package_manager", .str "PIP"), ("environment", .str "Venv"),
        ("type_checking", .none), ("security_checking", .none),
        ("linting", .none), ("tests", .none),
        ("main_code", .path "code"), ("format_code", .bool true)]),
     ("git", .record
       [("add", .bool false), ("commit", .bool true), ("push", .bool false)]),
     ("toggl", .record
       [("user_data", .record
         [("username", .str "a@b.cc"), ("password", .str "cHc="),
          ("api_key", .str "aw==")]),
        ("project", .int 7), ("cancel", .bool false)])]

/-!
## Helper lemmas
-/

theorem oor_assoc {α : Type} (x y z : Option α) :
    oor (oor x y) z = oor x (oor y z) := by
  cases x <;> simp [oor]

theorem oor_isSome_left {α : Type} (x y : Option α) (h : x.isSome) :
    oor x y = x := by
  cases x with
  | none => simp at h
  | some v => rfl

theorem lookupKey_append {α : Type} (a b : List (String × α)) (k : String) :
    lookupKey (a ++ b) k = oor (lookupKey a k) (lookupKey b k) := by
  induction a with
  | nil => simp [lookupKey, oor]
  | cons hd tl ih =>
    by_cases h : hd.1 = k <;>
      simp [lookupKey, h, oor, ih]

theorem anyKey_eq_isSome {α : Type} (l : List (String × α)) (k : String) :
    (l.any fun p => p.1 = k) = (lookupKey l k).isSome := by
  induction l with
  | nil => simp [lookupKey]
  | cons hd tl ih =>
    by_cases h : hd.1 = k <;> simp [lookupKey, h, ih]

theorem insertAnnotations_cons {α : Type} (acc : List (String × α))
    (hd : String × α) (tl : List (String × α)) :
    insertAnnotations acc (hd :: tl) =
      insertAnnotations
        (if acc.any (fun p => p.1 = hd.1) then acc else acc ++ [hd]) tl := rfl

theorem lookupKey_insertAnnotations {α : Type}
    (cls : List (String × α)) (acc : List (String × α)) (k : String) :
    lookupKey (insertAnnotations acc cls) k =
      oor (lookupKey acc k) (lookupKey cls k) := by
  induction cls generalizing acc with
  | nil =>
    cases h : lookupKey acc k <;> simp [insertAnnotations, lookupKey, oor, h]
  | cons hd tl ih =>
    rw [insertAnnotations_cons]
    by_cases h : (acc.any fun p => p.1 = hd.1) = true
    · rw [if_pos h, ih]
      by_cases hk : hd.1 = k
      · have hs : (lookupKey acc k).isSome := by
          rw [← anyKey_eq_isSome]
          rw [hk] at h
          exact h
        rw [oor_isSome_left _ _ hs]
        have : lookupKey (hd :: tl) k = some hd.2 := by simp [lookupKey, hk]
        rw [this, oor_isSome_left _ _ hs]
      · have : lookupKey (hd :: tl) k = lookupKey tl k := by simp [lookupKey, hk]
        rw [this]
    · rw [if_neg h, ih, lookupKey_append, oor_assoc]
      have : lookupKey (hd :: tl) k = oor (lookupKey [hd] k) (lookupKey tl k) := by
        by_cases hk : hd.1 = k <;> simp [lookupKey, hk, oor]
      rw [this]

theorem lookupKey_foldl_insert {α : Type}
    (L : List (List (String × α))) (acc : List (String × α)) (k : String) :
    lookupKey (L.foldl insertAnnotations acc) k =
      oor (lookupKey acc k) (lookupKey L.flatten k) := by
  induction L generalizing acc with
  | nil =>
    cases h : lookupKey acc k <;> simp [lookupKey, oor, h]
  | cons c L ih =>
    rw [List.foldl_cons, ih, lookupKey_insertAnnotations]
    rw [List.flatten_cons, lookupKey_append, oor_assoc]

theorem anyKeys_map {α : Type} (acc : List (String × α)) (x : String) :
    ((acc.map Prod.fst).any fun k2 => k2 = x)
      = (acc.any fun p => p.1 = x) := by
  induction acc with
  | nil => rfl
  | cons hd tl ih => simp [List.any_cons, ih]

theorem dedupInto_cons (ks : List String) (k : String) (l : List String) :
    dedupInto ks (k :: l) =
      dedupInto (if ks.any (fun k2 => k2 = k) then ks else ks ++ [k]) l := rfl

theorem keys_insertAnnotations {α : Type}
    (cls : List (String × α)) (acc : List (String × α)) :
    (insertAnnotations acc cls).map Prod.fst =
      dedupInto (acc.map Prod.fst) (cls.map Prod.fst) := by
  induction cls generalizing acc with
  | nil => rfl
  | cons hd tl ih =>
    have hany : ((acc.map Prod.fst).any fun k2 => k2 = hd.1)
        = (acc.any fun p => p.1 = hd.1) := anyKeys_map acc hd.1
    rw [insertAnnotations_cons, List.map_cons, dedupInto_cons, hany]
    by_cases h : (acc.any fun p => p.1 = hd.1) = true
    · rw [if_pos h, if_pos h, ih]
    · rw [if_neg h, if_neg h, ih]
      simp

theorem dedupInto_append (ks : List String) (a b : List String) :
    dedupInto ks (a ++ b) = dedupInto (dedupInto ks a) b := by
  simp [dedupInto, List.foldl_append]

theorem keys_foldl_insert {α : Type}
    (L : List (List (String × α))) (acc : List (String × α)) :
    (L.foldl insertAnnotations acc).map Prod.fst =
      dedupInto (acc.map Prod.fst) (L.flatten.map Prod.fst) := by
  induction L generalizing acc with
  | nil => rfl
  | cons c L ih =>
    rw [List.foldl_cons, ih, keys_insertAnnotations]
    rw [List.flatten_cons, List.map_append, dedupInto_append]

theorem mulAdd_div16 (p q : Nat) (hq : q < 16) : (p * 16 + q) / 16 = p := by omega

theorem mulAdd_mod16 (p q : Nat) (hq : q < 16) : (p * 16 + q) % 16 = q := by omega

theorem mulAdd_div4 (p q : Nat) (hq : q < 4) : (p * 4 + q) / 4 = p := by omega

theorem mulAdd_mod4 (p q : Nat) (hq : q < 4) : (p * 4 + q) % 4 = q := by omega

theorem b64Val_b64Char : ∀ v : Nat, v < 64 → b64Val (b64Char v) = some v := by
  decide

theorem b64Char_ne_pad : ∀ v : Nat, v < 64 → b64Char v ≠ 61 := by
  decide

theorem b64_roundtrip_aux : ∀ s : List Nat, (∀ b ∈ s, b < 256) →
    b64DecodeBytes (b64EncodeBytes s) = some s
  | [], _ => rfl
  | [a], h => by
    have ha : a < 256 := h a (by simp)
    have h1 : a / 4 < 64 := by omega
    have h2 : a % 4 * 16 < 64 := by omega
    simp only [b64EncodeBytes, b64DecodeBytes, b64Val_b64Char _ h1,
      b64Val_b64Char _ h2, and_self, and_true, if_true, reduceCtorEq]
    have e1 : a / 4 * 4 + a % 4 * 16 / 16 = a := by
      rw [Nat.mul_div_cancel _ (by norm_num : (0 : Nat) < 16)]
      omega
    rw [e1]
  | [a, b], h => by
    have ha : a < 256 := h a (by simp)
    have hb : b < 256 := h b (by simp)
    have h1 : a / 4 < 64 := by omega
    have h2 : a % 4 * 16 + b / 16 < 64 := by omega
    have h3 : b % 16 * 4 < 64 := by omega
    simp only [b64EncodeBytes, b64DecodeBytes, b64Val_b64Char _ h1,
      b64Val_b64Char _ h2, b64Val_b64Char _ h3, b64Char_ne_pad _ h3,
      false_and, and_true, if_false, if_true, and_self, reduceCtorEq]
    have e1 : a / 4 * 4 + (a % 4 * 16 + b / 16) / 16 = a := by
      rw [mulAdd_div16 (a % 4) (b / 16) (by omega)]
      omega
    have e2 : (a % 4 * 16 + b / 16) % 16 * 16 + b % 16 * 4 / 4 = b := by
      rw [mulAdd_mod16 (a % 4) (b / 16) (by omega),
        Nat.mul_div_cancel _ (by norm_num : (0 : Nat) < 4)]
      omega
    rw [e1, e2]
  | [a, b, c], h => by
    have ha : a < 256 := h a (by simp)
    have hb : b < 256 := h b (by simp)
    have hc : c < 256 := h c (by simp)
    have h1 : a / 4 < 64 := by omega
    have h2 : a % 4 * 16 + b / 16 < 64 := by omega
    have h3 : b % 16 * 4 + c / 64 < 64 := by omega
    have h4 : c % 64 < 64 := by omega
    simp only [b64EncodeBytes, b64DecodeBytes, b64Val_b64Char _ h1,
      b64Val_b64Char _ h2, b64Val_b64Char _ h3, b64Val_b64Char _ h4,
      b64Char_ne_pad _ h3, b64Char_ne_pad _ h4, false_and, and_true,
      if_false, if_true, and_self, Option.map_some, reduceCtorEq]
    have e1 : a / 4 * 4 + (a % 4 * 16 + b / 16) / 16 = a := by
      rw [mulAdd_div16 (a % 4) (b / 16) (by omega)]
      omega
    have e2 : (a % 4 * 16 + b / 16) % 16 * 16 + (b % 16 * 4 + c / 64) / 4 = b := by
      rw [mulAdd_mod16 (a % 4) (b / 16) (by omega),
        mulAdd_div4 (b % 16) (c / 64) (by omega)]
      omega
    have e3 : (b % 16 * 4 + c / 64) % 4 * 64 + c % 64 = c := by
      rw [mulAdd_mod4 (b % 16) (c / 64) (by omega)]
      omega
    rw [e1, e2, e3]
    rfl
  | a :: b :: c :: d :: rest, h => by
    have ha : a < 256 := h a (by simp)
    have hb : b < 256 := h b (by simp)
    have hc : c < 256 := h c (by simp)
    have h1 : a / 4 < 64 := by omega
    have h2 : a % 4 * 16 + b / 16 < 64 := by omega
    have h3 : b % 16 * 4 + c / 64 < 64 := by omega
    have h4 : c % 64 < 64 := by omega
    have ih := b64_roundtrip_aux (d :: rest)
      (fun x hx => h x (by simp at hx ⊢; tauto))
    simp only [b64EncodeBytes, b64DecodeBytes, b64Val_b64Char _ h1,
      b64Val_b64Char _ h2, b64Val_b64Char _ h3, b64Val_b64Char _ h4,
      b64Char_ne_pad _ h3, b64Char_ne_pad _ h4, false_and, and_true,
      if_false, if_true, and_self, ih, Option.map_some, reduceCtorEq]
    have e1 : a / 4 * 4 + (a % 4 * 16 + b / 16) / 16 = a := by
      rw [mulAdd_div16 (a % 4) (b / 16) (by omega)]
      omega
    have e2 : (a % 4 * 16 + b / 16) % 16 * 16 + (b % 16 * 4 + c / 64) / 4 = b := by
      rw [mulAdd_mod16 (a % 4) (b / 16) (by omega),
        mulAdd_div4 (b % 16) (c / 64) (by omega)]
      omega
    have e3 : (b % 16 * 4 + c / 64) % 4 * 64 + c % 64 = c := by
      rw [mulAdd_mod4 (b % 16) (c / 64) (by omega)]
      omega
    rw [e1, e2, e3]
    rfl

theorem b64EncodeBytes_length : ∀ s : List Nat,
    (b64EncodeBytes s).length = 4 * ((s.length + 2) / 3)
  | [] => rfl
  | [_] => by simp [b64EncodeBytes]
  | [_, _] => by simp [b64EncodeBytes]
  | _ :: _ :: _ :: rest => by
    simp only [b64EncodeBytes, List.length_cons,
      b64EncodeBytes_length rest]
    omega

theorem b64EncodeBytes_ne_self (s : List Nat) (hs : s ≠ []) :
    b64EncodeBytes s ≠ s := by
  intro he
  have hl := congrArg List.length he
  rw [b64EncodeBytes_length] at hl
  have : 1 ≤ s.length := by
    cases s with
    | nil => exact absurd rfl hs
    | cons a t => simp
  omega

theorem create_path_go_spec (fs : List String) :
    ∀ (bads : List String) (good : String) (rest : List String),
      (∀ b ∈ bads, path_exists fs b = false) → path_exists fs good = true →
      create_path_go fs (bads ++ good :: rest)
        = some (good, bads.length + 1, bads.length)
  | [], good, rest, _, hg => by
    simp [create_path_go, hg]
  | bad :: bads, good, rest, hb, hg => by
    have h1 : path_exists fs bad = false := hb bad (by simp)
    have ih := create_path_go_spec fs bads good rest
      (fun b h => hb b (by simp [h])) hg
    simp [create_path_go, h1, ih]

theorem select_username_go_accepts : ∀ (bads : List String) (good : String)
    (rest : List String),
    (∀ b ∈ bads, usernameOk b = false) → usernameOk good = true →
    select_username_go (bads ++ good :: rest)
      = some (good, bads.length + 1, bads.length)
  | [], good, rest, _, hg => by simp [select_username_go, hg]
  | bad :: bads, good, rest, hb, hg => by
    have h1 : usernameOk bad = false := hb bad (by simp)
    have ih := select_username_go_accepts bads good rest
      (fun b h => hb b (by simp [h])) hg
    simp [select_username_go, h1, ih]

theorem select_username_go_sound : ∀ (inputs : List String) (s : String)
    (r e : Nat), select_username_go inputs = some (s, r, e) →
    usernameOk s = true ∧ s ∈ inputs
  | [], s, r, e, h => by simp [select_username_go] at h
  | inp :: rest, s, r, e, h => by
    by_cases hok : usernameOk inp = true
    · simp [select_username_go, hok] at h
      exact ⟨h.1 ▸ hok, by simp [h.1]⟩
    · simp only [select_username_go, if_neg hok] at h
      cases hrec : select_username_go rest with
      | none => rw [hrec] at h; simp at h
      | some x =>
        rw [hrec] at h
        simp only [Option.map_some', Option.some.injEq, Prod.mk.injEq] at h
        have hs := select_username_go_sound rest x.1 x.2.1 x.2.2 hrec
        exact ⟨h.1 ▸ hs.1, List.mem_cons_of_mem _ (h.1 ▸ hs.2)⟩

/-!
## Claim theorems
-/

/-- Claim C1 (round-trip law).  For every configuration value `V`
materialized from the static schema whose absent/default-dependent leaves
are all resolved (every `Optional` leaf holds a present value — `V` is an
arbitrary instance of `mkConfigValue`), re-materializing the decoded
encoding of `V` against the same schema yields `V` itself and leaves the
console untouched: `generate_config(ConfigModel, decode(encode(V))) = V`.
The textual layer (`json.dumps`/`json.load`) is the identity on the JSON
tree, so `decode (encode V)` is `encode V` as a `Json` value. -/
theorem materialize_roundtrip (fs : List String)
    (td pm env tc sc li te mc : String) (fc ga gc gp : Bool)
    (u pw ak : String) (pr : Int) (cn : Bool) (st : PState) :
    generate_config fs genFuel (.cls .configModel)
        (some (encode (mkConfigValue td pm env tc sc li te mc fc ga gc gp
          u pw ak pr cn))) st
      = .ok (mkConfigValue td pm env tc sc li te mc fc ga gc gp
          u pw ak pr cn, st) := rfl

/-- Claim C2, counterexample.  A two-level hierarchy (`__mro__` listed most
derived first, `object` last) where the field `x` is declared `str` in the
leaf class and `int` in the base class: `all_annotations` returns the
base-class (outer-most) declaration, not the one closest to the leaf. -/
theorem all_annotations_leaf_redeclaration_cex :
    lookupKey (all_annotations [[("x", Shape.str)], [("x", Shape.int)], []]) "x"
      = some Shape.int ∧ Shape.int ≠ Shape.str :=
  ⟨rfl, by decide⟩

/-- Claim C2, amended.  For every class hierarchy, the mapping returned by
the reflector assigns to each field the declaration made in the
**outer-most (least derived)** class that declares it — looking a key up in
`all_annotations mro` is looking it up in the concatenation of the reversed
MRO (base classes first) — while the ordering of field names follows
first-declaration order with outer-most declarations first (the keys are
the first-occurrence dedup of the reversed-MRO key sequence). -/
theorem all_annotations_outermost_wins (mro : List (List (String × Shape)))
    (k : String) :
    lookupKey (all_annotations mro) k = lookupKey mro.reverse.flatten k ∧
    (all_annotations mro).map Prod.fst
      = dedupFirst (mro.reverse.flatten.map Prod.fst) := by
  constructor
  · rw [all_annotations, lookupKey_foldl_insert]
    rfl
  · rw [all_annotations, keys_foldl_insert]
    rfl

/-- Claim C3, counterexample.  Fresh materialization of `TogglConfig` (no
existing value supplied) with the input script
`["a@b.cc", "pw", "key", "42"]`: the `Optional[int]` field `project`
(declared default `None`) is resolved by the interactive integer resolver
to `42` — not to absent — and four prompts are answered (`reads = 4`), so
the Optional node neither yields absent nor avoids the prompt resolvers. -/
theorem optional_project_prompts_cex :
    generate_config [] genFuel (.cls .togglConfig) Option.none
        { inputs := ["a@b.cc", "pw", "key", "42"], reads := 0, errors := 0 }
      = .ok (.record
          [("user_data", .record
            [("username", .str "a@b.cc"), ("password", .str "cHc="),
             ("api_key", .str "a2V5")]),
           ("project", .int 42), ("cancel", .bool false)],
          { inputs := [], reads := 4, errors := 0 })
    ∧ Value.int 42 ≠ Value.none :=
  ⟨rfl, fun h => Value.noConfusion h⟩

/-- Claim C3, amended.  On the fresh path an `Optional` node does not
default silently; dispatch runs on the unwrapped inner type and the field
name: `Optional[int]` (`project`) invokes the integer resolver (which has
no default escape), `Optional[str]` named `api_key` invokes the secret
resolver, and only `bool` fields take their declared default without
prompting.  Concretely: fresh materialization of `TogglConfig` with inputs
`[u, p, a, i]` (valid email `u`, integer literal `i`) performs four reads
and yields `project = n`, `cancel = false`. -/
theorem togglConfig_fresh_prompts (fs : List String) (u p a i : String)
    (n : Int) (r e : Nat)
    (hu : usernameOk u = true) (hn : pyIntOfString i = some n) :
    generate_config fs genFuel (.cls .togglConfig) Option.none
        { inputs := [u, p, a, i], reads := r, errors := e }
      = .ok (.record
          [("user_data", .record
            [("username", .str u),
             ("password", .str (asciiString (b64EncodeBytes (utf8Bytes p)))),
             ("api_key", .str (asciiString (b64EncodeBytes (utf8Bytes a))))]),
           ("project", .int n), ("cancel", .bool false)],
          { inputs := [], reads := r + 4, errors := e }) := by
  simp [generate_config, genFuel, genFields, freshField, fieldsOf,
    all_annotations, mroOf, ownAnnotations, insertAnnotations, defaultsOf,
    select_username, select_username_go, select_password, select_int,
    select_int_go, applyGo, ofInput, postInit, isNestedDataclass, hu, hn,
    bind, Except.bind, pure, Except.pure]

/-- Witness for C3 amended, at `u = "a@b.cc"`, `p = "pw"`, `a = "key"`,
`i = "42"`. -/
theorem togglConfig_fresh_prompts_witness :
    generate_config [] genFuel (.cls .togglConfig) Option.none
        { inputs := ["a@b.cc", "pw", "key", "42"], reads := 0, errors := 0 }
      = .ok (.record
          [("user_data", .record
            [("username", .str "a@b.cc"),
             ("password",
               .str (asciiString (b64EncodeBytes (utf8Bytes "pw")))),
             ("api_key",
               .str (asciiString (b64EncodeBytes (utf8Bytes "key"))))]),
           ("project", .int 42), ("cancel", .bool false)],
          { inputs := [], reads := 0 + 4, errors := 0 }) :=
  togglConfig_fresh_prompts [] "a@b.cc" "pw" "key" "42" 42 0 0
    (by decide) (by decide)

/-- Claim C4.  For every malformed persisted document (the parse result is
a JSON decode error), `load_config` behaves exactly as `new_config`: it
enters Fresh materialization, and the decode failure never propagates to
the caller (no error value derived from the decode error is returned). -/
theorem decode_failure_triggers_fresh (fs : List String) (st : PState) :
    load_config fs (.error ()) st = new_config fs st := rfl

/-- Claim C5.  Whenever the persisted document exists, decodes successfully
and regeneration is not forced, `ConfigManager.__init__` takes the Reuse
path and any configuration it returns comes with no disk write
(`w = none`); by contrast every successful Fresh run (`new_config`) writes
exactly the encoding of the value it returns. -/
theorem reuse_path_never_writes (fs : List String) (doc : Json)
    (st st2 : PState) :
    (∀ v st1 w, configManagerInit fs true false (.ok doc) st = .ok (v, st1, w)
      → w = Option.none) ∧
    (∀ v st1 w, new_config fs st2 = .ok (v, st1, w) → w = some (encode v)) := by
  constructor
  · intro v st1 w h
    rw [show configManagerInit fs true false (.ok doc) st
        = load_config fs (.ok doc) st from rfl, load_config] at h
    cases hg : generate_config fs genFuel (.cls .configModel) (some doc) st with
    | error err =>
      rw [hg] at h
      simp only [bind, Except.bind] at h
      exact absurd h (by simp)
    | ok x =>
      rw [hg] at h
      simp only [bind, Except.bind, Except.ok.injEq, Prod.mk.injEq] at h
      exact h.2.2.symm
  · intro v st1 w h
    rw [new_config] at h
    cases hg : generate_config fs genFuel (.cls .configModel) Option.none st2 with
    | error err =>
      rw [hg] at h
      simp only [bind, Except.bind] at h
      exact absurd h (by simp)
    | ok x =>
      rw [hg] at h
      simp only [bind, Except.bind, Except.ok.injEq, Prod.mk.injEq] at h
      rw [← h.2.2, ← h.1]

/-- Witness for C5: a concrete Reuse run against the encoding of
`reuseValue` returns with no write, and a concrete successful Fresh run
writes the encoding of the value it returns. -/
theorem reuse_path_never_writes_witness :
    (Option.none : Option Json) = Option.none ∧
    some (encode freshRunValue) = some (encode freshRunValue) :=
  ⟨(reuse_path_never_writes [] (encode reuseValue)
      { inputs := [], reads := 0, errors := 0 }
      { inputs := freshInputs, reads := 0, errors := 0 }).1
    reuseValue { inputs := [], reads := 0, errors := 0 } Option.none rfl,
   (reuse_path_never_writes freshFs (encode reuseValue)
      { inputs := [], reads := 0, errors := 0 }
      { inputs := freshInputs, reads := 0, errors := 0 }).2
    freshRunValue { inputs := [], reads := 12, errors := 0 }
    (some (encode freshRunValue)) rfl⟩

/-- Claim C6.  For every Choice-resolver invocation with option list
`items` and default `d` (including `d = Value.none`), a first input that
parses as the sentinel index `items.length + 1` makes the resolver return
exactly `d` after one read, and a first input that parses as a 1-based
index `i` with `1 ≤ i ≤ items.length` makes it return the `i`-th option. -/
theorem select_option_default_sentinel (items : List String) (d : Value)
    (inp : String) (rest : List String) (i : Int)
    (hp : pyIntOfString inp = some i) :
    ((1 ≤ i ∧ i ≤ (items.length : Int)) →
      select_option_go items d (inp :: rest)
        = some (.str (items.getD (i.toNat - 1) ""), 1, 0)) ∧
    (i = (items.length : Int) + 1 →
      select_option_go items d (inp :: rest) = some (d, 1, 0)) := by
  constructor
  · intro hin
    simp only [select_option_go, hp, if_pos hin]
  · intro heq
    have hnot : ¬(1 ≤ i ∧ i ≤ (items.length : Int)) := by omega
    simp only [select_option_go, hp, if_neg hnot, if_pos heq]

/-- Witness for C6 over the `environment` options: input `"3"` selects the
sentinel and returns the default `Value.none`; input `"1"` returns the
first option. -/
theorem select_option_default_sentinel_witness :
    select_option_go ["Conda", "Venv"] Value.none ["3"]
      = some (Value.none, 1, 0) ∧
    select_option_go ["Conda", "Venv"] Value.none ["1"]
      = some (Value.str "Conda", 1, 0) :=
  ⟨(select_option_default_sentinel ["Conda", "Venv"] Value.none "3" [] 3
      (by decide)).2 (by decide),
   (select_option_default_sentinel ["Conda", "Venv"] Value.none "1" [] 1
      (by decide)).1 (by decide)⟩

/-- Claim C7, counterexample.  For the operator-entered secret text `""`
the Secret resolver returns exactly the entered text (base64 of the empty
byte string is the empty string), i.e. the stored value *is* the literal
plaintext, refuting "never s itself" at `s = ""`. -/
theorem select_password_empty_secret_cex :
    select_password { inputs := [""], reads := 0, errors := 0 }
      = some (Value.str "", { inputs := [], reads := 1, errors := 0 }) := rfl

/-- Claim C7, amended.  For every secret byte string `s`, the value the
Secret resolver stores is the base64 encoding of `s`, base64-decoding the
stored value (as `TgglApi.__init__` does with `b64decode`) recovers
exactly `s`, and for every **nonempty** `s` the stored value differs from
the plaintext `s`. -/
theorem secret_encoding_reversible (s : List Nat) (h : ∀ b ∈ s, b < 256) :
    b64DecodeBytes (b64EncodeBytes s) = some s ∧
    (s ≠ [] → b64EncodeBytes s ≠ s) :=
  ⟨b64_roundtrip_aux s h, fun hne => b64EncodeBytes_ne_self s hne⟩

/-- Witness for C7 amended at the byte string of `"pw"`. -/
theorem secret_encoding_reversible_witness :
    b64DecodeBytes (b64EncodeBytes [112, 119]) = some [112, 119] ∧
    ([112, 119] ≠ ([] : List Nat) → b64EncodeBytes [112, 119] ≠ [112, 119]) :=
  secret_encoding_reversible [112, 119] (by decide)

/-- Claim C8, counterexample.  The string `"a/b@c.de"` is accepted by the
pattern `select_username` actually compiles (inside a class `.-_` is the
code range 0x2E–0x5F, which contains `/`), but it does not match the
email-like pattern the spec describes (local part segmented only by `.`,
`-` or `_`). -/
theorem username_pattern_cex :
    usernameOk "a/b@c.de" = true ∧ usernameSpecOk "a/b@c.de" = false := by
  constructor <;> decide

/-- Claim C8, amended.  The username resolver returns a string iff it is
the first input fully matching the pattern actually compiled — in which
the local-part separator class is the ASCII range `'.'`–`'_'` (containing
`/`, digits, `:;<=>?@`, uppercase letters and `[\]^` besides `.`, `-`,
`_`) and the suffix-letter class additionally contains `|` — and it
returns the matched string unchanged: any prefix of rejected inputs is
consumed with one error each, and every returned string is an accepted
member of the input script. -/
theorem select_username_first_match (bads : List String) (good : String)
    (rest : List String) (inputs : List String) (s : String) (r e : Nat)
    (hb : ∀ b ∈ bads, usernameOk b = false) (hg : usernameOk good = true) :
    select_username_go (bads ++ good :: rest)
      = some (good, bads.length + 1, bads.length) ∧
    (select_username_go inputs = some (s, r, e) →
      usernameOk s = true ∧ s ∈ inputs) :=
  ⟨select_username_go_accepts bads good rest hb hg,
   fun h => select_username_go_sound inputs s r e h⟩

/-- Witness for C8 amended: one rejected input `"x"` before the accepted
`"a@b.cc"`. -/
theorem select_username_first_match_witness :
    select_username_go (["x"] ++ "a@b.cc" :: [])
      = some ("a@b.cc", 2, 1) ∧
    (select_username_go ["x", "a@b.cc"] = some ("a@b.cc", 2, 1) →
      usernameOk "a@b.cc" = true ∧ "a@b.cc" ∈ ["x", "a@b.cc"]) :=
  select_username_first_match ["x"] "a@b.cc" [] ["x", "a@b.cc"] "a@b.cc" 2 1
    (by decide) (by decide)

/-- Claim C9.  For every `N ≥ 0`, feeding the Path resolver `N` paths that
do not exist followed by one existing path returns that path as the
entered string, untransformed, after exactly `N + 1` input reads with
exactly `N` invalid-path errors printed (`bads.length = N`; the remaining
script shows exactly `N + 1` lines were consumed). -/
theorem create_path_retry_convergence (fs : List String)
    (bads : List String) (good : String) (rest : List String) (r e : Nat)
    (hb : ∀ b ∈ bads, path_exists fs b = false)
    (hg : path_exists fs good = true) :
    create_path fs { inputs := bads ++ good :: rest, reads := r, errors := e }
      = some (good, { inputs := rest, reads := r + (bads.length + 1),
                      errors := e + bads.length }) := by
  rw [create_path, create_path_go_spec fs bads good rest hb hg]
  have hdrop : List.drop (bads.length + 1) (bads ++ good :: rest) = rest := by
    rw [show bads ++ good :: rest = (bads ++ [good]) ++ rest by simp,
      show bads.length + 1 = (bads ++ [good]).length by simp]
    exact List.drop_left _ _
  simp [applyGo, hdrop]

/-- Witness for C9 with `N = 2`: two non-existing paths then the existing
path `"ok"`. -/
theorem create_path_retry_convergence_witness :
    create_path ["ok"]
        { inputs := ["no1", "no2"] ++ "ok" :: ["z"], reads := 0, errors := 0 }
      = some ("ok", { inputs := ["z"], reads := 0 + (2 + 1),
                      errors := 0 + 2 }) :=
  create_path_retry_convergence ["ok"] ["no1", "no2"] "ok" ["z"] 0 0
    (by decide) (by decide)

/-- Claim C10 (implicit).  The Fresh fallback in `load_config` is triggered
exactly by JSON decode errors: on a decode error it behaves as
`new_config` for every console state, while for the syntactically valid
document `mismatchedDoc` — which stores JSON `null` for the
`Optional[int]` field `project` — materialization raises `TypeError`
(`int(None)`) which propagates uncaught out of the Config Manager instead
of triggering Fresh regeneration. -/
theorem load_fallback_iff_decode_error :
    (∀ (fs : List String) (st : PState),
      load_config fs (.error ()) st = new_config fs st) ∧
    load_config [] (.ok mismatchedDoc)
        { inputs := [], reads := 0, errors := 0 }
      = .error .typeError :=
  ⟨fun _ _ => rfl, rfl⟩
